import Mathlib

/-!
Verification of the bidirectional Anthropic/OpenAI conversion layer and the
streaming re-emission state machine of the claude-code proxy.

The Lean definitions below are a shallow embedding of the Go sources:
`internal/services/conversion.go`, `internal/services/token_counting.go`
(the `StreamingService` half), and `internal/services/model_selector.go`.
Go's dynamically typed `interface{}` JSON values are embedded as the
inductive `JsonValue`; Go maps `map[string]interface{}` are embedded as
association lists in insertion order (Go map iteration order is
unspecified; no theorem below depends on it).  `crypto/rand`-generated
identifiers are passed in as explicit parameters.
-/

/-- A JSON value as produced by Go's `encoding/json` unmarshalling into
`interface{}`.  Numbers are restricted to integers: no claim exercises
non-integral numerics. -/
inductive JsonValue where
  | null
  | bool (b : Bool)
  | num (n : Int)
  | str (s : String)
  | arr (items : List JsonValue)
  | obj (fields : List (String × JsonValue))

namespace JsonValue

/-- `m[key]` lookup on an embedded Go map (first matching key). -/
def lookup (key : String) : JsonValue → Option JsonValue
  | .obj fields => go fields
  | _ => none
where go : List (String × JsonValue) → Option JsonValue
  | [] => none
  | (k, v) :: rest => if k = key then some v else go rest

/-- `itemMap["k"].(string)` : the field, provided it is a string. -/
def getStr (key : String) (v : JsonValue) : Option String :=
  match v.lookup key with
  | some (.str s) => some s
  | _ => none

/-- `itemMap["k"].(bool)` : the field, provided it is a boolean. -/
def getBool (key : String) (v : JsonValue) : Option Bool :=
  match v.lookup key with
  | some (.bool b) => some b
  | _ => none

end JsonValue

/-- JSON string literal with minimal escaping. -/
def marshalJsonString (s : String) : String :=
  "\"" ++ String.join (s.toList.map fun c =>
    if c = '"' then "\\\"" else if c = '\\' then "\\\\" else String.singleton c) ++ "\""

mutual

/-- Serialisation mirroring Go's `json.Marshal` closely enough for the
claims (which only inspect a tag prefix prepended to the serialised
text): object fields are emitted in association-list order, and string
escaping covers quotes and backslashes. -/
def marshalJson : JsonValue → String
  | .null => "null"
  | .bool b => if b then "true" else "false"
  | .num n => toString n
  | .str s => marshalJsonString s
  | .arr items => "[" ++ marshalJsonList items ++ "]"
  | .obj fields => "\x7b" ++ marshalJsonFields fields ++ "\x7d"

def marshalJsonList : List JsonValue → String
  | [] => ""
  | [v] => marshalJson v
  | v :: rest => marshalJson v ++ "," ++ marshalJsonList rest

def marshalJsonFields : List (String × JsonValue) → String
  | [] => ""
  | [(k, v)] => marshalJsonString k ++ ":" ++ marshalJson v
  | (k, v) :: rest => marshalJsonString k ++ ":" ++ marshalJson v ++ "," ++ marshalJsonFields rest

end

/-! ## Configuration and wire-format records (internal/models, internal/config) -/

/-- The slice of `config.Config` the conversion layer reads. -/
structure Config where
  bigModelName : String
  smallModelName : String
  openClaudeCache : Bool

/-- `models.AnthropicCacheControl`. -/
structure AnthropicCacheControl where
  type : String
deriving Repr, DecidableEq

/-- `models.OpenAIFunctionCall`. -/
structure OpenAIFunctionCall where
  name : String
  arguments : String
deriving Repr, DecidableEq

/-- `models.OpenAIToolCall`.  The `Index` field is only populated on the
streaming path. -/
structure OpenAIToolCall where
  id : String
  type : String
  index : Nat
  function : OpenAIFunctionCall
  cacheControl : Option AnthropicCacheControl
deriving Repr, DecidableEq

/-- `models.OpenAIMessage`.  Go's `Content interface{}` (nil, a string, or
an array of content parts) is embedded as `Option JsonValue`. -/
structure OpenAIMessage where
  role : String
  content : Option JsonValue
  toolCalls : List OpenAIToolCall
  toolCallId : String
  cacheControl : Option AnthropicCacheControl

/-- `models.AnthropicContent` (the fields the response converter writes). -/
structure AnthropicContent where
  type : String
  text : String
  id : String
  name : String
  input : Option JsonValue
  cacheControl : Option AnthropicCacheControl

/-! ## Finish-reason mapping (conversion.go:704-718, token_counting.go:700-714) -/

/-- `ConversionService.convertFinishReason` (conversion.go): maps an OpenAI
finish reason to an Anthropic stop reason. -/
def convertFinishReason (reason : String) : String :=
  if reason = "stop" then "end_turn"
  else if reason = "length" then "max_tokens"
  else if reason = "tool_calls" then "tool_use"
  else if reason = "content_filter" then "stop_sequence"
  else "end_turn"

/-- `StreamingService.convertFinishReason` (token_counting.go, streaming
half): the same switch, duplicated on the streaming path. -/
def convertFinishReasonStreaming (reason : String) : String :=
  if reason = "stop" then "end_turn"
  else if reason = "length" then "max_tokens"
  else if reason = "tool_calls" then "tool_use"
  else if reason = "content_filter" then "stop_sequence"
  else "end_turn"

/-! ## Model selection (model_selector.go) and cache capability (conversion.go) -/

/-- ASCII lowering, agreeing with Go's `strings.ToLower` on the ASCII
inputs the classifier patterns consist of. -/
def lowerAscii (s : String) : String :=
  ⟨s.data.map Char.toLower⟩

/-- Go's `strings.Contains` (substring containment). -/
def strContains (s sub : String) : Bool :=
  go s.toList
where go : List Char → Bool
  | [] => sub.toList.isEmpty
  | l@(_ :: rest) => sub.toList.isPrefixOf l || go rest

/-- `ModelSelectorService.SelectModel`.  Returns the selected outbound
model name together with a flag recording whether the unknown-model
warning branch was taken (the Go code logs a warning there and never
returns an error).  The request argument of the Go method is only
logged, so it is omitted. -/
def selectModel (cfg : Config) (anthropicModel : String) : String × Bool :=
  let clientModelLower := lowerAscii anthropicModel
  if strContains clientModelLower "opus" || strContains clientModelLower "sonnet" then
    (cfg.bigModelName, false)
  else if strContains clientModelLower "haiku" then
    (cfg.smallModelName, false)
  else
    (cfg.smallModelName, true)

/-- `ConversionService.isClaudeModel`: cache control is enabled for the
target model iff the `OpenClaudeCache` config flag is set and the target
model name contains `"claude"` case-insensitively. -/
def isClaudeModel (cfg : Config) (targetModelName : String) : Bool :=
  cfg.openClaudeCache && strContains (lowerAscii targetModelName) "claude"

/-! ## Request conversion (conversion.go) -/

/-- Go's `strings.Join` with the given separator. -/
def strJoin (sep : String) : List String → String
  | [] => ""
  | [x] => x
  | x :: rest => x ++ sep ++ strJoin sep rest

/-- Is the embedded `interface{}` value a JSON `null` (Go `nil`)? -/
def JsonValue.isNull : JsonValue → Bool
  | .null => true
  | _ => false

/-- The shared Go pattern `if cacheMap, ok := item["cache_control"].(map[string]interface{}); ok`
followed by reading its `"type"` string: yields an `AnthropicCacheControl`
whenever the field is present and is an object (a Go `nil` or non-map value
fails the type assertion and yields nothing). -/
def extractCacheControl (item : JsonValue) : Option AnthropicCacheControl :=
  match item.lookup "cache_control" with
  | some cc =>
    match cc with
    | .obj _ => some ⟨(cc.getStr "type").getD ""⟩
    | _ => none
  | none => none

/-- `convertUserMessage`'s per-part step of attaching `cache_control` to an
outbound content part: kept only for cache-capable (Claude) targets, and
only when present and non-null on the inbound item. -/
def addCacheControlField (isClaude : Bool) (item : JsonValue)
    (fields : List (String × JsonValue)) : List (String × JsonValue) :=
  if isClaude then
    match item.lookup "cache_control" with
    | some cc => if cc.isNull then fields else fields ++ [("cache_control", cc)]
    | none => fields
  else fields

/-- The synthetic text part `convertUserMessage` and
`convertAssistantMessage` build for an unrecognised content-block type. -/
def unknownContentText (contentType : String) (item : JsonValue) : String :=
  "[UNKNOWN_CONTENT_TYPE:" ++ contentType ++ "] " ++ marshalJson item

/-- `ConversionService.convertToolResultToMessage`: a `tool_result` block
becomes a separate outbound message with role `"tool"`.  Fails when
`tool_use_id` is missing (or not a string). -/
def convertToolResultToMessage (isClaude : Bool) (toolResult : JsonValue) :
    Except String OpenAIMessage :=
  match toolResult.getStr "tool_use_id" with
  | none => .error "tool_result missing tool_use_id"
  | some toolUseId =>
    let errorParts : List String :=
      match toolResult.getBool "is_error" with
      | some true => ["[ERROR]"]
      | _ => []
    let contentParts : List String :=
      errorParts ++
        match toolResult.lookup "content" with
        | some (.str c) => [c]
        | some (.arr items) =>
          items.filterMap fun it =>
            if it.getStr "type" = some "text" then it.getStr "text" else none
        | some other => [marshalJson other]
        | none => []
    let cacheControl : Option AnthropicCacheControl :=
      if isClaude then extractCacheControl toolResult else none
    .ok { role := "tool", content := some (.str (strJoin " " contentParts)),
          toolCalls := [], toolCallId := toolUseId, cacheControl := cacheControl }

/-- One iteration of `convertUserMessage`'s loop: an inbound content item
yields separate outbound messages (for `tool_result`) and/or outbound user
content parts.  Non-object items and items without a string `type` are
skipped, exactly as the Go type assertions do. -/
def processUserItem (isClaude : Bool) (item : JsonValue) :
    Except String (List OpenAIMessage × List JsonValue) :=
  match item with
  | .obj _ =>
    match item.getStr "type" with
    | none => .ok ([], [])
    | some contentType =>
      if contentType = "text" then
        match item.getStr "text" with
        | some text =>
          .ok ([], [JsonValue.obj (addCacheControlField isClaude item
            [("type", .str "text"), ("text", .str text)])])
        | none => .ok ([], [])
      else if contentType = "image" then
        match item.lookup "source" with
        | some source =>
          if source.getStr "type" = some "base64" then
            match source.getStr "media_type", source.getStr "data" with
            | some mediaType, some data =>
              .ok ([], [JsonValue.obj (addCacheControlField isClaude item
                [("type", .str "image_url"),
                 ("image_url", .obj [("url", .str ("data:" ++ mediaType ++ ";base64," ++ data))])])])
            | _, _ => .ok ([], [])
          else .ok ([], [])
        | none => .ok ([], [])
      else if contentType = "tool_result" then
        match convertToolResultToMessage isClaude item with
        | .ok msg => .ok ([msg], [])
        | .error e => .error ("failed to convert tool result: " ++ e)
      else
        .ok ([], [JsonValue.obj
          [("type", .str "text"), ("text", .str (unknownContentText contentType item))]])
  | _ => .ok ([], [])

/-- The whole item loop of `convertUserMessage`, accumulating messages and
content parts in order. -/
def convertUserItems (isClaude : Bool) : List JsonValue →
    Except String (List OpenAIMessage × List JsonValue)
  | [] => .ok ([], [])
  | item :: rest =>
    match processUserItem isClaude item with
    | .error e => .error e
    | .ok (msgs, parts) =>
      match convertUserItems isClaude rest with
      | .error e => .error e
      | .ok (restMsgs, restParts) => .ok (msgs ++ restMsgs, parts ++ restParts)

/-- The tail of `convertUserMessage`: package the collected content parts
into the final user message.  A single text part is flattened to a plain
string for non-cache-capable targets; otherwise the array-of-parts form is
kept.  (Every part the loop constructs is an object whose `"text"` field,
when its type is `"text"`, is a string, matching the Go type assertion.) -/
def packageUserMessage (isClaude : Bool) (parts : List JsonValue) : OpenAIMessage :=
  let content : Option JsonValue :=
    match parts with
    | [p] =>
      match p with
      | .obj _ =>
        if p.getStr "type" = some "text" && !isClaude then
          some (.str ((p.getStr "text").getD ""))
        else
          some (.arr parts)
      | _ => none
    | _ => some (.arr parts)
  { role := "user", content := content, toolCalls := [], toolCallId := "", cacheControl := none }

/-- `ConversionService.convertUserMessage`. -/
def convertUserMessage (cfg : Config) (targetModel : String) (content : List JsonValue) :
    Except String (List OpenAIMessage) :=
  let isClaude := isClaudeModel cfg targetModel
  match convertUserItems isClaude content with
  | .error e => .error e
  | .ok (msgs, parts) =>
    if parts.isEmpty then .ok msgs
    else .ok (msgs ++ [packageUserMessage isClaude parts])

/-- `ConversionService.convertToolUse`: an inbound `tool_use` block becomes
an outbound tool call.  `genId` stands for the `crypto/rand`-generated id
the Go code draws when the block carries no (non-empty string) id. -/
def convertToolUse (genId : String) (isClaude : Bool) (toolUse : JsonValue) : OpenAIToolCall :=
  let id :=
    match toolUse.getStr "id" with
    | some id => if id ≠ "" then id else genId
    | none => genId
  let name := (toolUse.getStr "name").getD ""
  let arguments :=
    match toolUse.lookup "input" with
    | some (.str s) => s
    | some v => marshalJson v
    | none => "\x7b\x7d"
  { id := id, type := "function", index := 0, function := ⟨name, arguments⟩,
    cacheControl := if isClaude then extractCacheControl toolUse else none }

/-- One iteration of `convertAssistantMessage`'s loop: text parts and
unknown-type synthetic text accumulate on the left, tool calls on the
right. -/
def processAssistantItem (genId : String) (isClaude : Bool) (item : JsonValue) :
    List String × List OpenAIToolCall :=
  match item with
  | .obj _ =>
    match item.getStr "type" with
    | none => ([], [])
    | some contentType =>
      if contentType = "text" then
        match item.getStr "text" with
        | some text => ([text], [])
        | none => ([], [])
      else if contentType = "tool_use" then
        ([], [convertToolUse genId isClaude item])
      else
        ([unknownContentText contentType item], [])
  | _ => ([], [])

/-- The whole item loop of `convertAssistantMessage`. -/
def convertAssistantItems (genId : String) (isClaude : Bool) :
    List JsonValue → List String × List OpenAIToolCall
  | [] => ([], [])
  | item :: rest =>
    let (texts, calls) := processAssistantItem genId isClaude item
    let (restTexts, restCalls) := convertAssistantItems genId isClaude rest
    (texts ++ restTexts, calls ++ restCalls)

/-- `ConversionService.convertAssistantMessage`.  The only error paths in
the Go code are `json.Marshal` failures, which cannot occur for the
embedded JSON values, so the result is a plain list. -/
def convertAssistantMessage (cfg : Config) (targetModel genId : String)
    (content : List JsonValue) : List OpenAIMessage :=
  let isClaude := isClaudeModel cfg targetModel
  let (textParts, toolCalls) := convertAssistantItems genId isClaude content
  let assistantText := strJoin "\n" textParts
  if assistantText ≠ "" && !toolCalls.isEmpty then
    [{ role := "assistant", content := some (.str assistantText),
       toolCalls := [], toolCallId := "", cacheControl := none },
     { role := "assistant", content := none,
       toolCalls := toolCalls, toolCallId := "", cacheControl := none }]
  else if assistantText ≠ "" then
    [{ role := "assistant", content := some (.str assistantText),
       toolCalls := [], toolCallId := "", cacheControl := none }]
  else if !toolCalls.isEmpty then
    [{ role := "assistant", content := none,
       toolCalls := toolCalls, toolCallId := "", cacheControl := none }]
  else []

/-! ## Response conversion (conversion.go:582-702) -/

/-- The empty text block `convertOpenAIMessageContent` substitutes when no
content was produced (invariant 5). -/
def emptyTextBlock : AnthropicContent :=
  { type := "text", text := "", id := "", name := "", input := none, cacheControl := none }

/-- The text-content half of `convertOpenAIMessageContent`'s loop: plain
string content becomes one text block (when non-empty); an array of
content parts yields a text block per `text` part (with cache control
restored) and a placeholder text block per `image_url` part.  Other
content shapes are ignored, as in the Go switch. -/
def textBlocksOfContent : Option JsonValue → List AnthropicContent
  | some (.str s) =>
    if s ≠ "" then
      [{ type := "text", text := s, id := "", name := "", input := none, cacheControl := none }]
    else []
  | some (.arr parts) =>
    parts.filterMap fun part =>
      match part with
      | .obj _ =>
        match part.getStr "type" with
        | some partType =>
          if partType = "text" then
            some { type := "text", text := (part.getStr "text").getD "", id := "", name := "",
                   input := none, cacheControl := extractCacheControl part }
          else if partType = "image_url" then
            some { type := "text", text := "[IMAGE_CONTENT]", id := "", name := "",
                   input := none, cacheControl := none }
          else none
        | none => none
      | _ => none
  | _ => []

/-- The tool-call half of `convertOpenAIMessageContent`'s loop: one
`tool_use` block per outbound tool call.  `parse` stands for
`json.Unmarshal` of the argument string into `map[string]interface{}`;
on parse failure the input degrades to an error-annotated object. -/
def convertOpenAIToolCallBlock (parse : String → Option (List (String × JsonValue)))
    (tc : OpenAIToolCall) : AnthropicContent :=
  let input : JsonValue :=
    if tc.function.arguments ≠ "" then
      match parse tc.function.arguments with
      | some fields => .obj fields
      | none => .obj [("error_parsing_arguments", .str tc.function.arguments)]
    else .obj []
  { type := "tool_use", text := "", id := tc.id, name := tc.function.name,
    input := some input, cacheControl := tc.cacheControl }

/-- `ConversionService.convertOpenAIMessageContent`. -/
def convertOpenAIMessageContent (parse : String → Option (List (String × JsonValue)))
    (msg : OpenAIMessage) : List AnthropicContent :=
  let content := textBlocksOfContent msg.content ++
    msg.toolCalls.map (convertOpenAIToolCallBlock parse)
  if content.isEmpty then [emptyTextBlock] else content

/-! ## Streaming translation (token_counting.go, `StreamingService` half) -/

/-- The events the streaming translator emits downstream, with the
payload fields the claims inspect.  `contentBlockStartText` carries an
empty text placeholder on the wire; `contentBlockDeltaText` /
`contentBlockDeltaJson` are `content_block_delta` events with a
`text_delta` / `input_json_delta` payload. -/
inductive StreamEvent where
  | messageStart (messageId originalModel : String)
  | ping
  | contentBlockStartText (index : Nat)
  | contentBlockStartTool (index : Nat) (id name : String)
  | contentBlockDeltaText (index : Nat) (text : String)
  | contentBlockDeltaJson (index : Nat) (fragment : String)
  | contentBlockStop (index : Nat)
  | messageDelta (stopReason : String) (outputTokens : Nat)
  | messageStop
deriving Repr, DecidableEq

/-- `services.ToolCallState`. -/
structure ToolCallState where
  id : String
  name : String
  argumentsBuffer : String
  anthropicIndex : Nat
  openAIIndex : Nat
  hasSentStart : Bool
deriving Repr, DecidableEq

/-- The mutable streaming-translation fields of `StreamingService`
(token_counting.go:298-309).  In the Go source these live on the
long-lived service value itself, not on a per-request context; the
`toolCallStates` map is embedded as an association list in creation
order.  (The Go struct also carries a `hasStartedToolBlocks` map that is
written only by `resetStreamingState` and never read; it is omitted.) -/
structure StreamState where
  currentContentBlockIndex : Nat
  toolCallStates : List (Nat × ToolCallState)
  messageID : String
  outputTokens : Nat
  hasStartedTextBlock : Bool
deriving Repr, DecidableEq

/-- The zero value of the streaming fields, as after `NewStreamingService`. -/
def initialStreamState : StreamState :=
  { currentContentBlockIndex := 0, toolCallStates := [], messageID := "",
    outputTokens := 0, hasStartedTextBlock := false }

/-- `StreamingService.resetStreamingState`: clears the per-request fields
(but not `messageID`, which `StreamResponse` assigns separately). -/
def resetStreamingState (s : StreamState) : StreamState :=
  { s with currentContentBlockIndex := 0, toolCallStates := [],
           outputTokens := 0, hasStartedTextBlock := false }

/-- `s.toolCallStates[openAIIndex]` (map read). -/
def lookupToolCallState : List (Nat × ToolCallState) → Nat → Option ToolCallState
  | [], _ => none
  | (k, st) :: rest, key => if k = key then some st else lookupToolCallState rest key

/-- `s.toolCallStates[openAIIndex] = state` (map write; a fresh key is
appended, an existing key overwritten in place). -/
def setToolCallState : List (Nat × ToolCallState) → Nat → ToolCallState →
    List (Nat × ToolCallState)
  | [], key, st => [(key, st)]
  | (k, st') :: rest, key, st =>
    if k = key then (k, st) :: rest else (k, st') :: setToolCallState rest key st

/-- One iteration of `StreamingService.handleToolCallDeltas`'s loop over
the chunk's tool calls (token_counting.go:592-651): get or create the
state for this upstream position (a fresh position increments
`currentContentBlockIndex` and is assigned that new value), accumulate
id/name/argument fragments, emit `content_block_start` once id and name
are both known, then emit an `input_json_delta` for the incoming
argument fragment once the block has started. -/
def processOneToolCall (s : StreamState) (tc : OpenAIToolCall) :
    StreamState × List StreamEvent :=
  let openAIIndex := tc.index
  let (s, st) :=
    match lookupToolCallState s.toolCallStates openAIIndex with
    | some st => (s, st)
    | none =>
      let idx := s.currentContentBlockIndex + 1
      ({ s with currentContentBlockIndex := idx },
       { id := "", name := "", argumentsBuffer := "", anthropicIndex := idx,
         openAIIndex := openAIIndex, hasSentStart := false })
  let st := if tc.id ≠ "" then { st with id := tc.id } else st
  let st := if tc.function.name ≠ "" then { st with name := tc.function.name } else st
  let st :=
    if tc.function.arguments ≠ "" then
      { st with argumentsBuffer := st.argumentsBuffer ++ tc.function.arguments }
    else st
  let (st, startEvents) :=
    if st.hasSentStart = false ∧ st.id ≠ "" ∧ st.name ≠ "" then
      ({ st with hasSentStart := true },
       [StreamEvent.contentBlockStartTool st.anthropicIndex st.id st.name])
    else (st, [])
  let deltaEvents :=
    if st.hasSentStart = true ∧ tc.function.arguments ≠ "" then
      [StreamEvent.contentBlockDeltaJson st.anthropicIndex tc.function.arguments]
    else []
  ({ s with toolCallStates := setToolCallState s.toolCallStates openAIIndex st },
   startEvents ++ deltaEvents)

/-- `StreamingService.handleToolCallDeltas`. -/
def handleToolCallDeltas (s : StreamState) : List OpenAIToolCall →
    StreamState × List StreamEvent
  | [] => (s, [])
  | tc :: rest =>
    let (s', events) := processOneToolCall s tc
    let (s'', restEvents) := handleToolCallDeltas s' rest
    (s'', events ++ restEvents)

/-- `StreamingService.handleTextDelta` (token_counting.go:564-589): start
the text block at the *current* value of `currentContentBlockIndex` if it
has not started, then always emit the text fragment as a delta at that
index. -/
def handleTextDelta (s : StreamState) (textContent : String) :
    StreamState × List StreamEvent :=
  let (s, startEvents) :=
    if s.hasStartedTextBlock then (s, [])
    else ({ s with hasStartedTextBlock := true },
          [StreamEvent.contentBlockStartText s.currentContentBlockIndex])
  (s, startEvents ++ [StreamEvent.contentBlockDeltaText s.currentContentBlockIndex textContent])

/-- `StreamingService.handleFinishReason` (token_counting.go:654-691):
stop the text block — the Go code hardcodes index 0 here — stop every
started tool block (map iteration order is unspecified in Go; creation
order is used here), then emit `message_delta` with the mapped stop
reason. -/
def handleFinishReason (s : StreamState) (finishReason : String) :
    StreamState × List StreamEvent :=
  let textStops := if s.hasStartedTextBlock then [StreamEvent.contentBlockStop 0] else []
  let toolStops := s.toolCallStates.filterMap fun p =>
    if p.2.hasSentStart then some (StreamEvent.contentBlockStop p.2.anthropicIndex) else none
  (s, textStops ++ toolStops ++
      [StreamEvent.messageDelta (convertFinishReasonStreaming finishReason) s.outputTokens])

/-- A streaming chunk's first choice: `models.OpenAIChoice` restricted to
the fields the streaming path reads (`Delta`, `FinishReason`). -/
structure OpenAIStreamChoice where
  delta : Option OpenAIMessage
  finishReason : String

/-- `models.OpenAIStreamResponse` restricted to its `Choices`. -/
structure OpenAIStreamResponse where
  choices : List OpenAIStreamChoice

/-- `StreamingService.processStreamChunk` (token_counting.go:536-561): a
non-empty string text delta wins (and returns, even if the same chunk
carries tool calls or a finish reason), then tool-call deltas, then the
finish reason. -/
def processStreamChunk (s : StreamState) (resp : OpenAIStreamResponse) :
    StreamState × List StreamEvent :=
  match resp.choices with
  | [] => (s, [])
  | choice :: _ =>
    let textDelta : Option String :=
      match choice.delta with
      | some d =>
        match d.content with
        | some (.str t) => if t ≠ "" then some t else none
        | _ => none
      | none => none
    match textDelta with
    | some t => handleTextDelta s t
    | none =>
      let toolCalls := match choice.delta with | some d => d.toolCalls | none => []
      if !toolCalls.isEmpty then handleToolCallDeltas s toolCalls
      else if choice.finishReason ≠ "" then handleFinishReason s choice.finishReason
      else (s, [])

/-- `StreamingService.StreamResponse` on an already-parsed upstream chunk
sequence: reset the service state, assign the generated message id, emit
`message_start` and a `ping`, translate each chunk in order, and emit the
final `message_stop` after the `[DONE]` sentinel ends the read loop.
`msgId` stands for the `crypto/rand`-generated message id. -/
def streamResponse (s0 : StreamState) (msgId originalModel : String)
    (chunks : List OpenAIStreamResponse) : StreamState × List StreamEvent :=
  let s := { resetStreamingState s0 with messageID := msgId }
  let (s, events) := chunks.foldl
    (fun acc chunk =>
      let (s', events') := processStreamChunk acc.1 chunk
      (s', acc.2 ++ events'))
    (s, [StreamEvent.messageStart msgId originalModel, StreamEvent.ping])
  (s, events ++ [StreamEvent.messageStop])

/-- The downstream event sequence of one request served on a fresh
service value. -/
def runStream (msgId originalModel : String) (chunks : List OpenAIStreamResponse) :
    List StreamEvent :=
  (streamResponse initialStreamState msgId originalModel chunks).2

/-- Recursive presentation of `streamResponse`'s chunk loop, used to
reason about it one chunk at a time (`streamResponse_eq_translateChunks`
proves it equal to the fold in the embedding of the source). -/
def translateChunks (s : StreamState) : List OpenAIStreamResponse →
    StreamState × List StreamEvent
  | [] => (s, [])
  | c :: cs =>
    let (s', events) := processStreamChunk s c
    let (s'', rest) := translateChunks s' cs
    (s'', events ++ rest)

/-! ### Upstream chunk fixtures (the parsed `data:` payload shapes) -/

/-- A chunk whose delta carries a text fragment. -/
def textChunk (t : String) : OpenAIStreamResponse :=
  { choices := [{ delta := some { role := "", content := some (.str t), toolCalls := [],
                                  toolCallId := "", cacheControl := none },
                  finishReason := "" }] }

/-- A chunk whose delta carries one tool call at upstream position `pos`. -/
def toolChunk (pos : Nat) (id name args : String) : OpenAIStreamResponse :=
  { choices := [{ delta := some { role := "", content := none,
                                  toolCalls := [{ id := id, type := "function", index := pos,
                                                  function := ⟨name, args⟩, cacheControl := none }],
                                  toolCallId := "", cacheControl := none },
                  finishReason := "" }] }

/-- A chunk carrying only a finish reason. -/
def finishChunk (reason : String) : OpenAIStreamResponse :=
  { choices := [{ delta := none, finishReason := reason }] }

/-! ### The long-lived service under interleaved requests

`NewStreamingService` is called once at server start-up
(handlers setup) and the resulting service value — with the mutable
fields above — is stored on the HTTP handler and shared by every
request.  `serviceStep`/`sharedServiceRun` replay a sequence of
per-request operations against that one shared state, tagging each
emitted event with the request it is written to. -/

/-- One operation of some request against the shared service value. -/
inductive ServiceOp where
  | beginRequest (reqId : Nat) (msgId originalModel : String)
  | chunk (reqId : Nat) (resp : OpenAIStreamResponse)
  | endOfStream (reqId : Nat)

/-- Effect of one operation on the shared service state. -/
def serviceStep (s : StreamState) : ServiceOp → StreamState × List (Nat × StreamEvent)
  | .beginRequest reqId msgId originalModel =>
    ({ resetStreamingState s with messageID := msgId },
     [(reqId, .messageStart msgId originalModel), (reqId, .ping)])
  | .chunk reqId resp =>
    let (s', events) := processStreamChunk s resp
    (s', events.map fun e => (reqId, e))
  | .endOfStream reqId => (s, [(reqId, .messageStop)])

/-- Replay of an interleaving of requests against the single shared
service state. -/
def sharedServiceRun (ops : List ServiceOp) : List (Nat × StreamEvent) :=
  (ops.foldl
    (fun acc op =>
      let (s', events) := serviceStep acc.1 op
      (s', acc.2 ++ events))
    (initialStreamState, [])).2

/-- The events a given request receives. -/
def requestEvents (reqId : Nat) (events : List (Nat × StreamEvent)) : List StreamEvent :=
  events.filterMap fun p => if p.1 = reqId then some p.2 else none

/-! ### Trace observations used by the claims -/

/-- The `content_block_start` events of a trace, in emission order. -/
def blockStartEvents (events : List StreamEvent) : List StreamEvent :=
  events.filter fun e =>
    match e with
    | .contentBlockStartText _ => true
    | .contentBlockStartTool _ _ _ => true
    | _ => false

/-- How many `content_block_start` events a trace emits at index `i`. -/
def blockStartCount (events : List StreamEvent) (i : Nat) : Nat :=
  events.countP fun e =>
    match e with
    | .contentBlockStartText j => j == i
    | .contentBlockStartTool j _ _ => j == i
    | _ => false

/-- How many `content_block_stop` events a trace emits at index `i`. -/
def blockStopCount (events : List StreamEvent) (i : Nat) : Nat :=
  events.countP fun e =>
    match e with
    | .contentBlockStop j => j == i
    | _ => false

/-- Deleting the `cache_control` key of an outbound content part; used to
state that two converted outputs differ by more than the presence of
cache hints. -/
def dropCacheControlField : JsonValue → JsonValue
  | .obj fields => .obj (fields.filter fun f => f.1 ≠ "cache_control")
  | v => v

/-- Deleting every content-part `cache_control` key of an outbound
message content. -/
def stripCacheHints : Option JsonValue → Option JsonValue
  | some (.arr parts) => some (.arr (parts.map dropCacheControlField))
  | c => c

/-! ## Theorems -/

/-- C5: The finish-reason mapping is a total deterministic function applied
identically on the streaming and non-streaming paths: `"stop" ↦ "end_turn"`,
`"length" ↦ "max_tokens"`, `"tool_calls" ↦ "tool_use"`,
`"content_filter" ↦ "stop_sequence"`, and every other string (including the
empty string) maps to `"end_turn"`. -/
theorem finishReason_mapping_total (reason : String) :
    convertFinishReason "stop" = "end_turn" ∧
    convertFinishReason "length" = "max_tokens" ∧
    convertFinishReason "tool_calls" = "tool_use" ∧
    convertFinishReason "content_filter" = "stop_sequence" ∧
    (reason ≠ "stop" → reason ≠ "length" → reason ≠ "tool_calls" →
      reason ≠ "content_filter" → convertFinishReason reason = "end_turn") ∧
    convertFinishReasonStreaming reason = convertFinishReason reason := by
  refine ⟨rfl, rfl, rfl, rfl, ?_, rfl⟩
  intro h1 h2 h3 h4
  simp [convertFinishReason, h1, h2, h3, h4]

/-- Witness for C5 at the unmapped input `""`. -/
theorem finishReason_mapping_total_witness :
    convertFinishReason "" = "end_turn" :=
  (finishReason_mapping_total "").2.2.2.2.1 (by decide) (by decide) (by decide) (by decide)

/-- C9: `SelectModel` classifies by pure case-insensitive substring
matching in this order: a name containing `"opus"` or `"sonnet"` yields the
configured big-tier model; otherwise a name containing `"haiku"` yields the
configured small-tier model; any other name yields the small-tier model
with only a warning flag and no error. -/
theorem selectModel_classification (cfg : Config) (name : String) :
    (strContains (lowerAscii name) "opus" = true ∨ strContains (lowerAscii name) "sonnet" = true →
      selectModel cfg name = (cfg.bigModelName, false)) ∧
    (strContains (lowerAscii name) "opus" = false → strContains (lowerAscii name) "sonnet" = false →
      strContains (lowerAscii name) "haiku" = true →
      selectModel cfg name = (cfg.smallModelName, false)) ∧
    (strContains (lowerAscii name) "opus" = false → strContains (lowerAscii name) "sonnet" = false →
      strContains (lowerAscii name) "haiku" = false →
      selectModel cfg name = (cfg.smallModelName, true)) := by
  refine ⟨?_, ?_, ?_⟩
  · rintro (h | h) <;> simp [selectModel, h]
  · intro h1 h2 h3
    simp [selectModel, h1, h2, h3]
  · intro h1 h2 h3
    simp [selectModel, h1, h2, h3]

/-- Witness for C9 on one name of each class (upper-case `OPUS`
exercising case-insensitivity). -/
theorem selectModel_classification_witness :
    selectModel ⟨"big-model", "small-model", false⟩ "Claude-3-OPUS-latest" = ("big-model", false) ∧
    selectModel ⟨"big-model", "small-model", false⟩ "claude-3-haiku" = ("small-model", false) ∧
    selectModel ⟨"big-model", "small-model", false⟩ "gpt-4o" = ("small-model", true) :=
  ⟨(selectModel_classification _ _).1 (Or.inl (by decide)),
   (selectModel_classification _ _).2.1 (by decide) (by decide) (by decide),
   (selectModel_classification _ _).2.2 (by decide) (by decide) (by decide)⟩

/-- C2 (failing input): in a stream where a tool-call block is opened
before the first text delta, the first text delta's `content_block_start`
is emitted at the current index counter — here 1, colliding with the tool
block's index — not at the reserved index 0; the finish handler
nevertheless emits the text block's `content_block_stop` at the hardcoded
index 0.  Text deltas do always yield a `content_block_delta` with the
received fragment. -/
theorem textBlockStart_not_at_zero_after_tool :
    runStream "msg_c2" "claude-3-sonnet"
      [toolChunk 0 "t1" "f" "", textChunk "hi", finishChunk "stop"] =
      [.messageStart "msg_c2" "claude-3-sonnet", .ping,
       .contentBlockStartTool 1 "t1" "f",
       .contentBlockStartText 1,
       .contentBlockDeltaText 1 "hi",
       .contentBlockStop 0,
       .contentBlockStop 1,
       .messageDelta "end_turn" 0,
       .messageStop] := by
  rfl

/-- C4 (failing input): in the same tool-call-before-text stream shape,
the emitted sequence contains a `content_block_stop` at index 0 although
no `content_block_start` was ever emitted at index 0, and index 1
receives two `content_block_start` events. -/
theorem blockStop_without_start :
    blockStartCount (runStream "msg_c4" "m"
      [toolChunk 0 "tx" "g" "", textChunk "yo", finishChunk "tool_calls"]) 0 = 0 ∧
    blockStopCount (runStream "msg_c4" "m"
      [toolChunk 0 "tx" "g" "", textChunk "yo", finishChunk "tool_calls"]) 0 = 1 ∧
    blockStartCount (runStream "msg_c4" "m"
      [toolChunk 0 "tx" "g" "", textChunk "yo", finishChunk "tool_calls"]) 1 = 2 := by
  refine ⟨rfl, rfl, rfl⟩

/-- C3 (failing input): the streaming-translation state lives on the one
long-lived service value, so a second request beginning mid-stream resets
the first request's state: under the interleaving below, request 0
receives a duplicated `content_block_start` for its text block, which a
fresh per-request state (the isolated run on the right) never produces. -/
theorem sharedStreamingState_interference :
    requestEvents 0 (sharedServiceRun
      [.beginRequest 0 "msg_a" "claude-3-opus",
       .chunk 0 (textChunk "a"),
       .beginRequest 1 "msg_b" "claude-3-opus",
       .chunk 0 (textChunk "b"),
       .endOfStream 0]) ≠
    runStream "msg_a" "claude-3-opus" [textChunk "a", textChunk "b"] := by
  decide

/-- C1 (counterexample to "never equal to the upstream position"): with
upstream tool-call positions 1 and 2, the first tool call — upstream
position field 1 — is assigned content-block index 1, equal to its own
position field (and the second, at position 2, is assigned index 2). -/
theorem assignedIndex_equals_upstream_position :
    blockStartEvents (runStream "msg_c1" "claude-3-sonnet"
      [textChunk "hi", toolChunk 1 "ta" "f" "", toolChunk 2 "tb" "g" "", finishChunk "tool_calls"]) =
      [.contentBlockStartText 0, .contentBlockStartTool 1 "ta" "f",
       .contentBlockStartTool 2 "tb" "g"] := by
  rfl

/-- The chunk loop of `streamResponse` as a recursion: the fold with an
event accumulator equals `translateChunks` with the accumulated events
prepended. -/
theorem foldl_eq_translateChunks (chunks : List OpenAIStreamResponse) :
    ∀ (s : StreamState) (acc : List StreamEvent),
      chunks.foldl
        (fun acc' chunk =>
          let (s', events') := processStreamChunk acc'.1 chunk
          (s', acc'.2 ++ events'))
        (s, acc) =
      ((translateChunks s chunks).1, acc ++ (translateChunks s chunks).2) := by
  induction chunks with
  | nil => intro s acc; simp [translateChunks]
  | cons c cs ih =>
    intro s acc
    simp only [List.foldl_cons, translateChunks]
    cases hc : processStreamChunk s c with
    | mk s' ev =>
      simp only [hc]
      rw [ih]
      cases ht : translateChunks s' cs with
      | mk s'' evs => simp

/-- `runStream` decomposed: preamble, translated chunks, `message_stop`. -/
theorem runStream_eq (msgId model : String) (chunks : List OpenAIStreamResponse) :
    runStream msgId model chunks =
      StreamEvent.messageStart msgId model :: StreamEvent.ping ::
        ((translateChunks ⟨0, [], msgId, 0, false⟩ chunks).2 ++
          [StreamEvent.messageStop]) := by
  unfold runStream streamResponse
  dsimp only [resetStreamingState, initialStreamState]
  rw [foldl_eq_translateChunks]
  cases h : translateChunks
      { currentContentBlockIndex := 0, toolCallStates := [], messageID := msgId,
        outputTokens := 0, hasStartedTextBlock := false } chunks with
  | mk s' evs => simp [initialStreamState, h]

/-- A non-empty text delta chunk dispatches to `handleTextDelta`. -/
theorem processStreamChunk_text (s : StreamState) (t : String) (ht : t ≠ "") :
    processStreamChunk s (textChunk t) = handleTextDelta s t := by
  simp [processStreamChunk, textChunk, ht]

/-- A single-tool-call delta chunk dispatches to `processOneToolCall`. -/
theorem processStreamChunk_tool (s : StreamState) (p : Nat) (id n a : String) :
    processStreamChunk s (toolChunk p id n a) =
      processOneToolCall s
        { id := id, type := "function", index := p, function := ⟨n, a⟩, cacheControl := none } := by
  simp only [processStreamChunk, toolChunk, handleToolCallDeltas]
  cases h : processOneToolCall s
      { id := id, type := "function", index := p, function := ⟨n, a⟩, cacheControl := none } with
  | mk s' ev => simp [h]

/-- A finish-reason chunk dispatches to `handleFinishReason`. -/
theorem processStreamChunk_finish (s : StreamState) (r : String) (hr : r ≠ "") :
    processStreamChunk s (finishChunk r) = handleFinishReason s r := by
  simp [processStreamChunk, finishChunk, hr]

/-- First text delta: the block starts at the current index counter. -/
theorem handleTextDelta_notStarted (s : StreamState) (t : String)
    (h : s.hasStartedTextBlock = false) :
    handleTextDelta s t =
      ({ s with hasStartedTextBlock := true },
       [StreamEvent.contentBlockStartText s.currentContentBlockIndex,
        StreamEvent.contentBlockDeltaText s.currentContentBlockIndex t]) := by
  simp [handleTextDelta, h]

/-- A tool call at a fresh upstream position whose id and name arrive in
this chunk: the position is assigned index `currentContentBlockIndex + 1`
and its `content_block_start` is emitted, followed by an argument delta
when the chunk carries a fragment. -/
theorem processOneToolCall_fresh (s : StreamState) (p : Nat) (id n a : String)
    (hlook : lookupToolCallState s.toolCallStates p = none)
    (hid : id ≠ "") (hn : n ≠ "") :
    processOneToolCall s
        { id := id, type := "function", index := p, function := ⟨n, a⟩, cacheControl := none } =
      ({ s with currentContentBlockIndex := s.currentContentBlockIndex + 1,
                toolCallStates := setToolCallState s.toolCallStates p
                  { id := id, name := n, argumentsBuffer := a,
                    anthropicIndex := s.currentContentBlockIndex + 1,
                    openAIIndex := p, hasSentStart := true } },
       StreamEvent.contentBlockStartTool (s.currentContentBlockIndex + 1) id n ::
         (if a ≠ "" then
            [StreamEvent.contentBlockDeltaJson (s.currentContentBlockIndex + 1) a]
          else [])) := by
  rcases eq_or_ne a "" with ha | ha <;>
    simp [processOneToolCall, hlook, hid, hn, ha]

/-- An empty finish reason (and no delta payload) produces no events. -/
theorem processStreamChunk_finish_empty (s : StreamState) :
    processStreamChunk s (finishChunk "") = (s, []) := by
  simp [processStreamChunk, finishChunk]

/-- C1 (amended): for every streaming request whose upstream stream is
text followed by two distinct tool calls, the emitted
`content_block_start` indices are exactly 0, 1, 2 in order of first
appearance, determined by first-appearance order alone — the upstream
positions `p1 ≠ p2` do not influence the assignment (though an assigned
index may numerically coincide with a position, see
`assignedIndex_equals_upstream_position`). -/
theorem streaming_indices_by_first_appearance
    (msgId model t id1 n1 a1 id2 n2 a2 reason : String) (p1 p2 : Nat)
    (ht : t ≠ "") (hid1 : id1 ≠ "") (hn1 : n1 ≠ "") (hid2 : id2 ≠ "")
    (hn2 : n2 ≠ "") (hp : p1 ≠ p2) :
    blockStartEvents (runStream msgId model
      [textChunk t, toolChunk p1 id1 n1 a1, toolChunk p2 id2 n2 a2, finishChunk reason]) =
      [.contentBlockStartText 0, .contentBlockStartTool 1 id1 n1,
       .contentBlockStartTool 2 id2 n2] := by
  have e1 : processStreamChunk ⟨0, [], msgId, 0, false⟩ (textChunk t) =
      (⟨0, [], msgId, 0, true⟩,
       [.contentBlockStartText 0, .contentBlockDeltaText 0 t]) := by
    rw [processStreamChunk_text _ _ ht, handleTextDelta_notStarted _ _ rfl]
  have e2 : processStreamChunk ⟨0, [], msgId, 0, true⟩ (toolChunk p1 id1 n1 a1) =
      (⟨1, [(p1, ⟨id1, n1, a1, 1, p1, true⟩)], msgId, 0, true⟩,
       .contentBlockStartTool 1 id1 n1 ::
         (if a1 ≠ "" then [.contentBlockDeltaJson 1 a1] else [])) := by
    rw [processStreamChunk_tool,
        processOneToolCall_fresh _ _ _ _ _ (by simp [lookupToolCallState]) hid1 hn1]
    rfl
  have e3 : processStreamChunk ⟨1, [(p1, ⟨id1, n1, a1, 1, p1, true⟩)], msgId, 0, true⟩
      (toolChunk p2 id2 n2 a2) =
      (⟨2, [(p1, ⟨id1, n1, a1, 1, p1, true⟩), (p2, ⟨id2, n2, a2, 2, p2, true⟩)], msgId, 0, true⟩,
       .contentBlockStartTool 2 id2 n2 ::
         (if a2 ≠ "" then [.contentBlockDeltaJson 2 a2] else [])) := by
    have hl : lookupToolCallState [(p1, (⟨id1, n1, a1, 1, p1, true⟩ : ToolCallState))] p2 = none := by
      simp [lookupToolCallState, hp]
    rw [processStreamChunk_tool, processOneToolCall_fresh _ _ _ _ _ hl hid2 hn2]
    simp [setToolCallState, hp]

  have e4 : handleFinishReason
      ⟨2, [(p1, ⟨id1, n1, a1, 1, p1, true⟩), (p2, ⟨id2, n2, a2, 2, p2, true⟩)], msgId, 0, true⟩
      reason =
      (⟨2, [(p1, ⟨id1, n1, a1, 1, p1, true⟩), (p2, ⟨id2, n2, a2, 2, p2, true⟩)], msgId, 0, true⟩,
       [.contentBlockStop 0, .contentBlockStop 1, .contentBlockStop 2,
        .messageDelta (convertFinishReasonStreaming reason) 0]) := rfl
  rw [runStream_eq]
  rcases eq_or_ne reason "" with hr | hr
  · subst hr
    simp only [translateChunks, e1, e2, e3, processStreamChunk_finish_empty]
    simp [blockStartEvents, List.filter_append, apply_ite (List.filter _)]
  · simp only [translateChunks, e1, e2, e3, processStreamChunk_finish _ _ hr, e4]
    simp [blockStartEvents, List.filter_append, apply_ite (List.filter _)]

/-- Witness for C1 (amended) at a concrete stream with the upstream's
usual 0-based tool-call numbering. -/
theorem streaming_indices_by_first_appearance_witness :
    blockStartEvents (runStream "msg_w1" "claude-3-opus"
      [textChunk "hello", toolChunk 0 "ida" "fa" "", toolChunk 1 "idb" "fb" "\x7b\x7d",
       finishChunk "tool_calls"]) =
      [.contentBlockStartText 0, .contentBlockStartTool 1 "ida" "fa",
       .contentBlockStartTool 2 "idb" "fb"] :=
  streaming_indices_by_first_appearance "msg_w1" "claude-3-opus" "hello" "ida" "fa" ""
    "idb" "fb" "\x7b\x7d" "tool_calls" 0 1 (by decide) (by decide) (by decide)
    (by decide) (by decide) (by decide)

/-- C6: the converted inbound response content array is never empty: the
single empty text block is substituted exactly when no text block and no
tool-call block was produced; when tool calls exist and no text content
was produced, the content is exactly the converted tool_use blocks with
no spurious empty text block; and whenever anything was produced the
result is exactly the produced blocks. -/
theorem responseContent_neverEmpty (parse : String → Option (List (String × JsonValue)))
    (msg : OpenAIMessage) :
    convertOpenAIMessageContent parse msg ≠ [] ∧
    (textBlocksOfContent msg.content = [] → msg.toolCalls = [] →
      convertOpenAIMessageContent parse msg = [emptyTextBlock]) ∧
    (msg.toolCalls ≠ [] → textBlocksOfContent msg.content = [] →
      convertOpenAIMessageContent parse msg =
        msg.toolCalls.map (convertOpenAIToolCallBlock parse)) ∧
    (textBlocksOfContent msg.content ≠ [] ∨ msg.toolCalls ≠ [] →
      convertOpenAIMessageContent parse msg =
        textBlocksOfContent msg.content ++ msg.toolCalls.map (convertOpenAIToolCallBlock parse)) := by
  rcases h1 : textBlocksOfContent msg.content with _ | ⟨b, bs⟩ <;>
    rcases h2 : msg.toolCalls with _ | ⟨tc, tcs⟩ <;>
      simp [convertOpenAIMessageContent, h1, h2]

/-- Witness for C6: a response with `finish_reason:"tool_calls"`-style
content — one tool call, no text — yields exactly the converted tool_use
block, no empty text block (the spec's §8 example). -/
theorem responseContent_neverEmpty_witness :
    convertOpenAIMessageContent (fun _ => some [("x", JsonValue.num 1)])
      { role := "assistant", content := none,
        toolCalls := [{ id := "t1", type := "function", index := 0,
                        function := ⟨"f", "\x7b\"x\":1\x7d"⟩, cacheControl := none }],
        toolCallId := "", cacheControl := none } =
      [{ type := "tool_use", text := "", id := "t1", name := "f",
         input := some (.obj [("x", JsonValue.num 1)]), cacheControl := none }] :=
  (responseContent_neverEmpty _ _).2.2.1 (by simp) rfl

/-- C7 (counterexample): an assistant block list containing a text block
(whose text is the empty string) and a tool_use block converts to ONE
outbound message — the tool-call message — not two: the Go code tests the
joined text for non-emptiness, not the presence of a text block. -/
theorem assistantMessage_emptyText_single_message :
    (convertAssistantMessage ⟨"big", "small", false⟩ "claude-x" "toolu_gen"
      [.obj [("type", .str "text"), ("text", .str "")],
       .obj [("type", .str "tool_use"), ("id", .str "t1"), ("name", .str "f"),
             ("input", .obj [])]]).length = 1 := by
  rfl

/-- C7 (amended): an assistant message whose text blocks join (with
newlines) to a non-empty string and which has at least one tool_use block
yields exactly two outbound messages — the text message first, then the
tool-calls message; non-empty joined text alone yields one text message;
tool calls with empty joined text yield one tool-calls message; neither
yields no message. -/
theorem assistantMessage_split (cfg : Config) (model genId : String) (items : List JsonValue)
    (textParts : List String) (toolCalls : List OpenAIToolCall)
    (h : convertAssistantItems genId (isClaudeModel cfg model) items = (textParts, toolCalls)) :
    (strJoin "\n" textParts ≠ "" → toolCalls ≠ [] →
      convertAssistantMessage cfg model genId items =
        [{ role := "assistant", content := some (.str (strJoin "\n" textParts)),
           toolCalls := [], toolCallId := "", cacheControl := none },
         { role := "assistant", content := none, toolCalls := toolCalls,
           toolCallId := "", cacheControl := none }]) ∧
    (strJoin "\n" textParts ≠ "" → toolCalls = [] →
      convertAssistantMessage cfg model genId items =
        [{ role := "assistant", content := some (.str (strJoin "\n" textParts)),
           toolCalls := [], toolCallId := "", cacheControl := none }]) ∧
    (strJoin "\n" textParts = "" → toolCalls ≠ [] →
      convertAssistantMessage cfg model genId items =
        [{ role := "assistant", content := none, toolCalls := toolCalls,
           toolCallId := "", cacheControl := none }]) ∧
    (strJoin "\n" textParts = "" → toolCalls = [] →
      convertAssistantMessage cfg model genId items = []) := by
  simp only [convertAssistantMessage, h]
  refine ⟨?_, ?_, ?_, ?_⟩ <;> intro h1 h2 <;>
    simp [h1, h2, List.isEmpty_iff]

/-- Witness for C7 (amended): the spec's §8 example — text `"ok"` plus one
tool call — yields the two outbound messages, text first. -/
theorem assistantMessage_split_witness :
    convertAssistantMessage ⟨"big", "small", false⟩ "gpt-4o" "toolu_w"
      [.obj [("type", .str "text"), ("text", .str "ok")],
       .obj [("type", .str "tool_use"), ("id", .str "t1"), ("name", .str "f"),
             ("input", .obj [])]] =
      [{ role := "assistant", content := some (.str "ok"),
         toolCalls := [], toolCallId := "", cacheControl := none },
       { role := "assistant", content := none,
         toolCalls := [{ id := "t1", type := "function", index := 0,
                         function := ⟨"f", "\x7b\x7d"⟩, cacheControl := none }],
         toolCallId := "", cacheControl := none }] :=
  (assistantMessage_split ⟨"big", "small", false⟩ "gpt-4o" "toolu_w"
      [.obj [("type", .str "text"), ("text", .str "ok")],
       .obj [("type", .str "tool_use"), ("id", .str "t1"), ("name", .str "f"),
             ("input", .obj [])]]
      ["ok"]
      [{ id := "t1", type := "function", index := 0,
         function := ⟨"f", "\x7b\x7d"⟩, cacheControl := none }]
      rfl).1 (by decide) (by decide)

/-- C8 (counterexample): toggling cache capability does not flip only the
hint's presence.  With capability on, a user message with a single
hint-carrying text block converts to the array-of-parts form carrying the
hint; with capability off (here: the `OpenClaudeCache` flag disabled even
though the model name contains the `"claude"` marker) the hint is dropped
AND the content collapses to a plain string — stripping the hint from the
capable output does not give the incapable output. -/
theorem cacheHint_toggle_changes_shape :
    convertUserMessage ⟨"big", "small", true⟩ "claude-x"
      [.obj [("type", .str "text"), ("text", .str "hi"),
             ("cache_control", .obj [("type", .str "ephemeral")])]] =
      .ok [{ role := "user",
             content := some (.arr [.obj [("type", .str "text"), ("text", .str "hi"),
                                          ("cache_control", .obj [("type", .str "ephemeral")])]]),
             toolCalls := [], toolCallId := "", cacheControl := none }] ∧
    convertUserMessage ⟨"big", "small", false⟩ "claude-x"
      [.obj [("type", .str "text"), ("text", .str "hi"),
             ("cache_control", .obj [("type", .str "ephemeral")])]] =
      .ok [{ role := "user", content := some (.str "hi"),
             toolCalls := [], toolCallId := "", cacheControl := none }] ∧
    stripCacheHints (some (.arr [.obj [("type", .str "text"), ("text", .str "hi"),
                                       ("cache_control", .obj [("type", .str "ephemeral")])]])) ≠
      some (.str "hi") := by
  refine ⟨rfl, rfl, ?_⟩
  intro h
  injection h with h'
  exact JsonValue.noConfusion h'

/-- C8 (amended): a cache hint on a (text) content item is forwarded to
the outbound payload iff the target is cache-capable — the
`OpenClaudeCache` flag is set AND the resolved model name contains
`"claude"` case-insensitively; otherwise it is silently dropped.
Toggling capability flips the hint's presence but also switches a
single-text-part message between the array-of-parts form and the
plain-string form. -/
theorem cacheHint_forwarding (cfg : Config) (model t : String) (cc : JsonValue)
    (hcc : cc.isNull = false) :
    (isClaudeModel cfg model = true →
      convertUserMessage cfg model
        [.obj [("type", .str "text"), ("text", .str t), ("cache_control", cc)]] =
        .ok [{ role := "user",
               content := some (.arr [.obj [("type", .str "text"), ("text", .str t),
                                            ("cache_control", cc)]]),
               toolCalls := [], toolCallId := "", cacheControl := none }]) ∧
    (isClaudeModel cfg model = false →
      convertUserMessage cfg model
        [.obj [("type", .str "text"), ("text", .str t), ("cache_control", cc)]] =
        .ok [{ role := "user", content := some (.str t),
               toolCalls := [], toolCallId := "", cacheControl := none }]) := by
  constructor <;> intro hcl <;>
    simp [convertUserMessage, convertUserItems, processUserItem, addCacheControlField,
          packageUserMessage, hcl, hcc, JsonValue.getStr, JsonValue.lookup, JsonValue.lookup.go]

/-- Witness for C8 (amended), both capability values at concrete inputs. -/
theorem cacheHint_forwarding_witness :
    convertUserMessage ⟨"big", "small", true⟩ "anthropic/claude-3.7-sonnet"
      [.obj [("type", .str "text"), ("text", .str "cached"),
             ("cache_control", .obj [("type", .str "ephemeral")])]] =
      .ok [{ role := "user",
             content := some (.arr [.obj [("type", .str "text"), ("text", .str "cached"),
                                          ("cache_control", .obj [("type", .str "ephemeral")])]]),
             toolCalls := [], toolCallId := "", cacheControl := none }] ∧
    convertUserMessage ⟨"big", "small", true⟩ "gpt-4o"
      [.obj [("type", .str "text"), ("text", .str "cached"),
             ("cache_control", .obj [("type", .str "ephemeral")])]] =
      .ok [{ role := "user", content := some (.str "cached"),
             toolCalls := [], toolCallId := "", cacheControl := none }] :=
  ⟨(cacheHint_forwarding ⟨"big", "small", true⟩ "anthropic/claude-3.7-sonnet" "cached"
      (.obj [("type", .str "ephemeral")]) rfl).1 (by decide),
   (cacheHint_forwarding ⟨"big", "small", true⟩ "gpt-4o" "cached"
      (.obj [("type", .str "ephemeral")]) rfl).2 (by decide)⟩

/-- The synthetic unknown-type text is never the empty string (it starts
with the literal tag). -/
theorem unknownContentText_ne_empty (ty : String) (item : JsonValue) :
    unknownContentText ty item ≠ "" := by
  unfold unknownContentText
  intro h
  have hlen := congrArg String.length h
  simp only [String.length_append, show ("] ").length = 2 from rfl,
    show ("".length) = 0 from rfl,
    show ("[UNKNOWN_CONTENT_TYPE:".length) = 22 from rfl] at hlen
  omega

/-- C10 (counterexample): a user message containing an unrecognised
content-block type can still fail conversion — here because it also
carries a `tool_result` block without a `tool_use_id` — so "request
conversion does not fail" does not hold for every message containing an
unknown block. -/
theorem unknownType_with_bad_toolResult_fails :
    convertUserMessage ⟨"big", "small", false⟩ "gpt-4o"
      [.obj [("type", .str "tool_result")],
       .obj [("type", .str "wacky"), ("x", .num 1)]] =
      .error "failed to convert tool result: tool_result missing tool_use_id" := by
  rfl

/-- C10 (amended): an unrecognised content-block type never itself fails
conversion and is degraded to a synthetic text part: on the user path the
unknown block is serialised to JSON and wrapped into a text part whose
text carries the `[UNKNOWN_CONTENT_TYPE:<type>]` tag as a prefix (the
part is packaged as a plain string or an array-of-parts depending on
cache capability), and on the assistant path the same tagged text becomes
the assistant text message.  Conversion of a message containing an
unknown block can still fail for unrelated reasons (a `tool_result`
missing its `tool_use_id`). -/
theorem unknownType_degrades (cfg : Config) (model genId ty : String)
    (fields : List (String × JsonValue))
    (h1 : ty ≠ "text") (h2 : ty ≠ "image") (h3 : ty ≠ "tool_result") (h4 : ty ≠ "tool_use") :
    (isClaudeModel cfg model = false →
      convertUserMessage cfg model [.obj (("type", .str ty) :: fields)] =
        .ok [{ role := "user",
               content := some (.str (unknownContentText ty (.obj (("type", .str ty) :: fields)))),
               toolCalls := [], toolCallId := "", cacheControl := none }]) ∧
    (isClaudeModel cfg model = true →
      convertUserMessage cfg model [.obj (("type", .str ty) :: fields)] =
        .ok [{ role := "user",
               content := some (.arr [.obj [("type", .str "text"),
                 ("text", .str (unknownContentText ty (.obj (("type", .str ty) :: fields))))]]),
               toolCalls := [], toolCallId := "", cacheControl := none }]) ∧
    ("[UNKNOWN_CONTENT_TYPE:" ++ ty ++ "]").data.isPrefixOf
      (unknownContentText ty (.obj (("type", .str ty) :: fields))).data = true ∧
    convertAssistantMessage cfg model genId [.obj (("type", .str ty) :: fields)] =
      [{ role := "assistant",
         content := some (.str (unknownContentText ty (.obj (("type", .str ty) :: fields)))),
         toolCalls := [], toolCallId := "", cacheControl := none }] := by
  refine ⟨?_, ?_, ?_, ?_⟩
  · intro hcl
    simp [convertUserMessage, convertUserItems, processUserItem, packageUserMessage,
          hcl, h1, h2, h3, JsonValue.getStr, JsonValue.lookup, JsonValue.lookup.go]
  · intro hcl
    simp [convertUserMessage, convertUserItems, processUserItem, packageUserMessage,
          hcl, h1, h2, h3, JsonValue.getStr, JsonValue.lookup, JsonValue.lookup.go]
  · have hd : (unknownContentText ty (.obj (("type", .str ty) :: fields))).data =
        ("[UNKNOWN_CONTENT_TYPE:" ++ ty ++ "]").data ++
          (" " ++ marshalJson (.obj (("type", .str ty) :: fields))).data := by
      simp [unknownContentText, String.data_append, String.instAppend, String.append]
    rw [hd, List.isPrefixOf_iff_prefix]
    exact List.prefix_append _ _
  · simp [convertAssistantMessage, convertAssistantItems, processAssistantItem,
          h1, h4, strJoin, unknownContentText_ne_empty,
          JsonValue.getStr, JsonValue.lookup, JsonValue.lookup.go, List.isEmpty_iff]

/-- Witness for C10 (amended) at the unknown block type `"thinking"`. -/
theorem unknownType_degrades_witness :
    convertUserMessage ⟨"big", "small", false⟩ "gpt-4o"
      [.obj [("type", .str "thinking"), ("x", .num 2)]] =
      .ok [{ role := "user",
             content := some (.str (unknownContentText "thinking"
               (.obj [("type", .str "thinking"), ("x", .num 2)]))),
             toolCalls := [], toolCallId := "", cacheControl := none }] ∧
    ("[UNKNOWN_CONTENT_TYPE:" ++ "thinking" ++ "]").data.isPrefixOf
      (unknownContentText "thinking"
        (.obj [("type", .str "thinking"), ("x", .num 2)])).data = true ∧
    convertAssistantMessage ⟨"big", "small", false⟩ "gpt-4o" "gid"
      [.obj [("type", .str "thinking"), ("x", .num 2)]] =
      [{ role := "assistant",
         content := some (.str (unknownContentText "thinking"
           (.obj [("type", .str "thinking"), ("x", .num 2)]))),
         toolCalls := [], toolCallId := "", cacheControl := none }] :=
  ⟨(unknownType_degrades ⟨"big", "small", false⟩ "gpt-4o" "gid" "thinking" [("x", .num 2)]
      (by decide) (by decide) (by decide) (by decide)).1 (by decide),
   (unknownType_degrades ⟨"big", "small", false⟩ "gpt-4o" "gid" "thinking" [("x", .num 2)]
      (by decide) (by decide) (by decide) (by decide)).2.2.1,
   (unknownType_degrades ⟨"big", "small", false⟩ "gpt-4o" "gid" "thinking" [("x", .num 2)]
      (by decide) (by decide) (by decide) (by decide)).2.2.2⟩
